import Mathlib

/-!
Verification of the recommendation engine of `src/main.py`
(`RestaurantBot`): URL normalization, menu filtering, ranking-response
parsing, the fallback scorer, and the orchestrating
`get_recommendation` pipeline are embedded as executable Lean
functions, and the specified properties are proved about them.

External effects are modelled as explicit parameters: the shuffled copy
of the catalog produced by `random.shuffle` is passed in as a list
(theorems assume it is a permutation of the stored data), the outcome
of the OpenAI call is a `RankOutcome` (a response text, or failure for
a timeout / any raised error), `random.uniform(0, 2)` draws are a
function from draw index to rational, and `random.choice` is an
arbitrary index reduced modulo the length of the list chosen from.
-/

/-- Model of Python `str.lower` on one character, restricted to the
alphabets the program's keyword tables use: ASCII letters and the
Cyrillic letters (including the Ukrainian і, ї, є, ґ and Russian ё). -/
def lowerChar (c : Char) : Char :=
  if 'A' ≤ c && c ≤ 'Z' then Char.ofNat (c.toNat + 32)
  else if 0x410 ≤ c.toNat && c.toNat ≤ 0x42F then Char.ofNat (c.toNat + 0x20)
  else if c.toNat == 0x401 then Char.ofNat 0x451
  else if c.toNat == 0x404 then Char.ofNat 0x454
  else if c.toNat == 0x406 then Char.ofNat 0x456
  else if c.toNat == 0x407 then Char.ofNat 0x457
  else if c.toNat == 0x490 then Char.ofNat 0x491
  else c

/-- Model of Python `str.lower` (`user_request.lower()`, `menu.lower()`,
ASCII/Cyrillic fragment). -/
def lowerStr (s : String) : String := String.mk (s.toList.map lowerChar)

/-- Substring search on character lists: the needle is a prefix of some
suffix of the haystack. -/
def isSubstrChars (needle : List Char) : List Char → Bool
  | [] => needle.isEmpty
  | c :: cs => needle.isPrefixOf (c :: cs) || isSubstrChars needle cs

/-- Python's `in` operator on strings: `needle in hay`. -/
def substrB (needle hay : String) : Bool := isSubstrChars needle.toList hay.toList

/-- One spreadsheet record (`worksheet.get_all_records()` row): each of
the nine keys read by the program may be absent (`dict.get` with a
default is used at every access). -/
structure Restaurant where
  name : Option String := none
  cuisine : Option String := none
  vibe : Option String := none
  aim : Option String := none
  address : Option String := none
  socials : Option String := none
  menu : Option String := none
  menu_url : Option String := none
  photo : Option String := none
deriving DecidableEq, Repr

/-- The dictionary returned by `get_recommendation` /
`_fallback_selection_dict` (all nine keys always present). -/
structure Recommendation where
  name : String
  address : String
  socials : String
  vibe : String
  aim : String
  cuisine : String
  menu : String
  menu_url : String
  photo : String
deriving DecidableEq, Repr

/-- A character of the regex class `[a-zA-Z0-9-_]` in
`_convert_google_drive_url`'s pattern. -/
def idChar (c : Char) : Bool := c.isAlpha || c.isDigit || c == '-' || c == '_'

/-- `re.search(r'/file/d/([a-zA-Z0-9-_]+)', url)`: the regex engine
tries every start position left to right; a position matches when
`/file/d/` is literally present and at least one class character
follows; the capture is the maximal run of class characters. -/
def findFileId : List Char → Option String
  | [] => none
  | c :: cs =>
    if ("/file/d/".toList).isPrefixOf (c :: cs) then
      if (((c :: cs).drop 8).takeWhile idChar).isEmpty then findFileId cs
      else some (String.mk (((c :: cs).drop 8).takeWhile idChar))
    else findFileId cs

/-- `RestaurantBot._convert_google_drive_url` (src/main.py lines 35-50):
empty or non-Google-Drive URLs pass through; otherwise the first
`/file/d/<id>` occurrence is rewritten to the direct-fetch form, and a
Drive URL without such an occurrence passes through. -/
def convert_google_drive_url (url : String) : String :=
  if url.isEmpty || !(substrB "drive.google.com" url) then url
  else
    match findFileId url.toList with
    | some file_id => "https://drive.google.com/uc?export=view&id=" ++ file_id
    | none => url

/-- The `food_keywords` table of `_filter_by_menu` (lines 214-227). -/
def food_keywords : List (String × List String) :=
  [("піца", ["піц", "pizza"]),
   ("паста", ["паст", "спагеті", "pasta"]),
   ("бургер", ["бургер", "burger", "гамбургер"]),
   ("суші", ["суш", "sushi", "рол"]),
   ("салат", ["салат", "salad"]),
   ("хумус", ["хумус", "hummus"]),
   ("фалафель", ["фалафель", "falafel"]),
   ("шаурма", ["шаурм", "shawarma"]),
   ("стейк", ["стейк", "steak", "мясо"]),
   ("риба", ["риб", "fish", "лосось"]),
   ("курка", ["курк", "курич", "chicken"]),
   ("десерт", ["десерт", "торт", "тірамісу", "морозиво"])]

/-- `requested_dishes` of `_filter_by_menu` (lines 230-233): the dishes
whose keywords occur in the lowercased request. -/
def requested_dishes (user_request : String) : List (String × List String) :=
  food_keywords.filter (fun p => p.2.any (fun k => substrB k (lowerStr user_request)))

/-- The per-restaurant test of `_filter_by_menu`'s inner loop (lines
240-254): some requested dish has a keyword occurring in the
lowercased menu text (`restaurant.get('menu', '').lower()`). -/
def menu_matches (user_request : String) (r : Restaurant) : Bool :=
  (requested_dishes user_request).any
    (fun p => p.2.any (fun k => substrB k (lowerStr (r.menu.getD ""))))

/-- `RestaurantBot._filter_by_menu` (lines 209-265): if no dish is
requested, or filtering would leave nothing, the input list is
returned unchanged; otherwise the matching restaurants in order. -/
def filter_by_menu (user_request : String) (restaurant_list : List Restaurant) :
    List Restaurant :=
  if (requested_dishes user_request).isEmpty then restaurant_list
  else if (restaurant_list.filter (menu_matches user_request)).isEmpty then restaurant_list
  else restaurant_list.filter (menu_matches user_request)

/-- The `keywords_map` table of `_smart_fallback_selection` (lines
274-281): category name, request-side keywords, venue-side keywords. -/
def keywords_map : List (String × List String × List String) :=
  [("romantic", (["романт", "побачен", "двох", "інтимн", "затишн"],
                 ["інтимн", "романт", "для пар", "затишн"])),
   ("family", (["сім", "діт", "родин", "батьк"], ["сімейн", "діт", "родин"])),
   ("business", (["діл", "зустріч", "перегов", "бізнес"], ["діл", "зустріч", "бізнес"])),
   ("friends", (["друз", "компан", "гуртом", "весел"], ["компан", "друз", "молодіжн"])),
   ("quick", (["швидк", "перекус", "фаст", "поспіша"], ["швидк", "casual", "фаст"])),
   ("celebration", (["святкув", "день народж", "ювіле", "свято"],
                    ["святков", "простор", "груп"]))]

/-- `f"{vibe} {aim} {cuisine}".lower()` of line 287. -/
def restaurant_text (r : Restaurant) : String :=
  lowerStr (r.vibe.getD "" ++ " " ++ r.aim.getD "" ++ " " ++ r.cuisine.getD "")

/-- The deterministic part of a candidate's score (lines 290-295):
5 points per category whose request keywords hit the lowercased
request and whose venue keywords hit the combined venue text. -/
def base_score (user_lower : String) (r : Restaurant) : Nat :=
  5 * keywords_map.countP (fun t =>
    (t.2.1.any (fun k => substrB k user_lower)) &&
    (t.2.2.any (fun k => substrB k (restaurant_text r))))

/-- The `scored_restaurants` list built by the loop of lines 284-300:
each candidate paired with its score, where `jitter i` is the
`random.uniform(0, 2)` draw for the i-th candidate. -/
def scored_restaurants (user_request : String) (restaurant_list : List Restaurant)
    (jitter : Nat → ℚ) : List (ℚ × Restaurant) :=
  restaurant_list.enum.map
    (fun ir => ((base_score (lowerStr user_request) ir.2 : ℚ) + jitter ir.1, ir.2))

instance : IsTotal (ℚ × Restaurant) (fun a b => b.1 ≤ a.1) :=
  ⟨fun a b => le_total b.1 a.1⟩

instance : IsTrans (ℚ × Restaurant) (fun a b => b.1 ≤ a.1) :=
  ⟨fun _ _ _ hab hbc => le_trans hbc hab⟩

/-- `scored_restaurants.sort(key=lambda x: x[0], reverse=True)` of line
303: Python's `list.sort` is a stable sort, and with `reverse=True` it
orders by strictly greater score while keeping the original order of
equal scores; the stable insertion sort by `b.1 ≤ a.1` produces
exactly that list. -/
def sorted_scored (user_request : String) (restaurant_list : List Restaurant)
    (jitter : Nat → ℚ) : List (ℚ × Restaurant) :=
  List.insertionSort (fun a b => b.1 ≤ a.1)
    (scored_restaurants user_request restaurant_list jitter)

/-- `RestaurantBot._smart_fallback_selection` (lines 267-315): when the
top score is strictly positive, `random.choice` over the first
`min(3, len)` sorted entries; otherwise `random.choice` over the whole
input list. `pick` drives `random.choice` (index modulo the chosen
list's length). `none` models the `IndexError` that
`scored_restaurants[0]` raises on an empty input list. -/
def smart_fallback_selection (user_request : String) (restaurant_list : List Restaurant)
    (jitter : Nat → ℚ) (pick : Nat) : Option Restaurant :=
  match sorted_scored user_request restaurant_list jitter with
  | [] => none
  | top :: rest =>
    if 0 < top.1 then
      (((top :: rest).take (min 3 (top :: rest).length))[pick %
        ((top :: rest).take (min 3 (top :: rest).length)).length]?).map Prod.snd
    else
      restaurant_list[pick % restaurant_list.length]?

/-- `re.findall(r'\d+', text)` followed by taking the first element:
the first maximal run of decimal digits, if any. (Python `\d` also
matches non-ASCII decimal digits; the ranking response is modelled
over ASCII digits, the only digits the prompt solicits.) -/
def firstDigitRun : List Char → Option (List Char)
  | [] => none
  | c :: cs =>
    if c.isDigit then some (c :: cs.takeWhile Char.isDigit) else firstDigitRun cs

/-- Python `int` on a non-empty digit string. -/
def digitsToNat (ds : List Char) : Nat :=
  ds.foldl (fun acc c => 10 * acc + (c.toNat - 48)) 0

/-- `numbers = re.findall(r'\d+', choice_text)`; `int(numbers[0])` when
non-empty (lines 168-171). -/
def firstNumber (text : String) : Option Nat :=
  (firstDigitRun text.toList).map digitsToNat

/-- The response-parsing step of `get_recommendation` (lines 166-182):
first digit run read as a 1-based index, kept only when
`0 <= int(numbers[0]) - 1 < len(filtered_restaurants)`,
i.e. when it lies in `[1, n]`. -/
def parse_rank (text : String) (n : Nat) : Option Nat :=
  match firstNumber text with
  | none => none
  | some k => if 1 ≤ k ∧ k ≤ n then some k else none

/-- The result-assembly step (lines 184-200, identical at 321-336):
each absent field is replaced by its fixed default, and the photo is
passed through `_convert_google_drive_url` when non-empty
(`if photo_url:`). -/
def assemble (chosen : Restaurant) : Recommendation :=
  { name := chosen.name.getD "Ресторан"
    address := chosen.address.getD "Адреса не вказана"
    socials := chosen.socials.getD "Соц-мережі не вказані"
    vibe := chosen.vibe.getD "Приємна атмосфера"
    aim := chosen.aim.getD "Для будь-яких подій"
    cuisine := chosen.cuisine.getD "Смачна кухня"
    menu := chosen.menu.getD ""
    menu_url := chosen.menu_url.getD ""
    photo :=
      let photo_url := chosen.photo.getD ""
      if photo_url.isEmpty then photo_url else convert_google_drive_url photo_url }

/-- `RestaurantBot._fallback_selection_dict` (lines 317-336): fallback
selection over the STORED data (`self.restaurants_data`), then
assembly. `none` models the `IndexError` on an empty store. -/
def fallback_selection_dict (restaurants_data : List Restaurant) (user_request : String)
    (jitter : Nat → ℚ) (pick : Nat) : Option Recommendation :=
  (smart_fallback_selection user_request restaurants_data jitter pick).map assemble

/-- Outcome of the OpenAI ranking call: a response text, or failure
(an `asyncio.TimeoutError` or any other exception raised during
ranking — lines 202-207 handle both identically). -/
inductive RankOutcome where
  | response (text : String)
  | failure
deriving DecidableEq

/-- `RestaurantBot.get_recommendation` (lines 80-207). `restaurants_data`
is `self.restaurants_data`; `shuffled` is the shuffled copy of line
97-98 (a permutation of the data); `outcome` is the ranking call's
outcome. On failure the code runs `_fallback_selection_dict`, which
scores `self.restaurants_data`, not the filtered set; on an unusable
response it scores the filtered set (lines 179 and 182). -/
def get_recommendation (restaurants_data : List Restaurant) (user_request : String)
    (shuffled : List Restaurant) (outcome : RankOutcome)
    (jitter : Nat → ℚ) (pick : Nat) : Option Recommendation :=
  if restaurants_data.isEmpty then none
  else
    match outcome with
    | .failure => fallback_selection_dict restaurants_data user_request jitter pick
    | .response text =>
      let filtered := filter_by_menu user_request shuffled
      match parse_rank text filtered.length with
      | some k => (filtered[k - 1]?).map assemble
      | none => (smart_fallback_selection user_request filtered jitter pick).map assemble

/-- The bot's mutable state: the `self.restaurants_data` attribute
(src/main.py line 33). -/
structure BotState where
  restaurants_data : List Restaurant
deriving DecidableEq

/-- State-passing embedding of `get_recommendation`: the method reads
`self.restaurants_data`, shuffles a `.copy()` of it (lines 97-98),
builds fresh lists in `_filter_by_menu` and `_smart_fallback_selection`,
and never assigns the attribute, so the state component threads
through unchanged. -/
def get_recommendation_state (st : BotState) (user_request : String)
    (shuffled : List Restaurant) (outcome : RankOutcome)
    (jitter : Nat → ℚ) (pick : Nat) : Option Recommendation × BotState :=
  (get_recommendation st.restaurants_data user_request shuffled outcome jitter pick, st)

/-- A character list is safe when every `'/'` in it is immediately
followed, inside the list, by a character other than `'f'`; then the
pattern `/file/d/` cannot start anywhere in it, even when a
slash-free tail is appended. -/
def safeL1 : List Char → Bool
  | [] => true
  | c :: rest =>
    if c = '/' then
      match rest with
      | [] => false
      | d :: _ => (d != 'f') && safeL1 rest
    else safeL1 rest

/-- First record of the spec's concrete scenario. -/
def sushi_bar : Restaurant := { name := some "Sushi Bar", menu := some "sushi rolls" }

/-- Second record of the spec's concrete scenario. -/
def pizza_place : Restaurant := { name := some "Pizza Place", menu := some "pizza, pasta" }

/-- A venue whose text matches the `romantic` venue keywords. -/
def intim_venue : Restaurant := { name := some "A", vibe := some "інтимна атмосфера" }

/-- A venue whose text matches no venue keywords. -/
def plain_venue : Restaurant := { name := some "B", vibe := some "звичайне місце" }

/-! ## Helper lemmas -/

lemma findFileId_cons_of_neg {c : Char} {cs : List Char}
    (h : ("/file/d/".toList).isPrefixOf (c :: cs) = false) :
    findFileId (c :: cs) = findFileId cs := by
  rw [findFileId, h]
  simp

lemma pat_isPrefixOf_false {c : Char} (cs : List Char) (hc : c ≠ '/') :
    ("/file/d/".toList).isPrefixOf (c :: cs) = false := by
  have hrw : "/file/d/".toList = '/' :: "file/d/".toList := rfl
  rw [hrw]
  simp [List.isPrefixOf]
  intro h
  exact absurd h.symm hc

lemma pat_isPrefixOf_false2 {d : Char} (cs : List Char) (hd : d ≠ 'f') :
    ("/file/d/".toList).isPrefixOf ('/' :: d :: cs) = false := by
  have hrw : "/file/d/".toList = '/' :: 'f' :: "ile/d/".toList := rfl
  rw [hrw]
  simp [List.isPrefixOf]
  intro h
  exact absurd h.symm hd

lemma findFileId_no_slash : ∀ {l : List Char}, (∀ c ∈ l, c ≠ '/') → findFileId l = none
  | [], _ => rfl
  | c :: cs, h => by
    rw [findFileId_cons_of_neg (pat_isPrefixOf_false cs (h c (by simp)))]
    exact findFileId_no_slash (fun x hx => h x (by simp [hx]))

lemma findFileId_safe_append (l1 : List Char) :
    ∀ l2 : List Char, safeL1 l1 = true → (∀ c ∈ l2, c ≠ '/') →
    findFileId (l1 ++ l2) = none := by
  induction l1 with
  | nil => intro l2 _ h2; exact findFileId_no_slash h2
  | cons c rest ih =>
    intro l2 h1 h2
    by_cases hc : c = '/'
    · subst hc
      cases rest with
      | nil => simp [safeL1] at h1
      | cons d rest2 =>
        have h1' : d ≠ 'f' ∧ safeL1 (d :: rest2) = true := by
          simpa [safeL1] using h1
        rw [List.cons_append, List.cons_append,
          findFileId_cons_of_neg (pat_isPrefixOf_false2 (rest2 ++ l2) h1'.1)]
        rw [← List.cons_append]
        exact ih l2 h1'.2 h2
    · rw [List.cons_append, findFileId_cons_of_neg (pat_isPrefixOf_false (rest ++ l2) hc)]
      have hsafe : safeL1 rest = true := by
        simpa [safeL1, hc] using h1
      exact ih l2 hsafe h2

lemma findFileId_chars : ∀ {l : List Char} {s : String}, findFileId l = some s →
    ∀ c ∈ s.toList, idChar c = true
  | [], s, h => by simp [findFileId] at h
  | c :: cs, s, h => by
    rw [findFileId] at h
    split at h
    · split at h
      · exact findFileId_chars h
      · simp only [Option.some.injEq] at h
        subst h
        intro x hx
        exact List.mem_takeWhile_imp hx
    · exact findFileId_chars h

lemma idChar_ne_slash {c : Char} (h : idChar c = true) : c ≠ '/' := by
  rintro rfl
  simp [idChar] at h

/-! ## Claim theorems -/

/-- C8: `_convert_google_drive_url` is idempotent; empty, non-Drive, or
pattern-less URLs pass through unchanged; the Drive file-view URL is
rewritten to the direct-fetch form and an unrelated URL is unchanged. -/
theorem claim_C8_url_normalizer :
    (∀ u : String, convert_google_drive_url (convert_google_drive_url u)
        = convert_google_drive_url u)
  ∧ (∀ u : String,
       u.isEmpty = true ∨ substrB "drive.google.com" u = false ∨ findFileId u.toList = none →
       convert_google_drive_url u = u)
  ∧ convert_google_drive_url "https://drive.google.com/file/d/ABC123/view"
      = "https://drive.google.com/uc?export=view&id=ABC123"
  ∧ convert_google_drive_url "https://example.com/img.jpg" = "https://example.com/img.jpg" := by
  have hunch : ∀ u : String,
      u.isEmpty = true ∨ substrB "drive.google.com" u = false ∨ findFileId u.toList = none →
      convert_google_drive_url u = u := by
    intro u h
    rcases h with h | h | h
    · simp [convert_google_drive_url, h]
    · simp [convert_google_drive_url, h]
    · by_cases hg : (u.isEmpty || !(substrB "drive.google.com" u)) = true
      · simp [convert_google_drive_url, hg]
      · rw [convert_google_drive_url, if_neg hg, h]
  refine ⟨?_, hunch, by rfl, by rfl⟩
  intro u
  by_cases hg : (u.isEmpty || !(substrB "drive.google.com" u)) = true
  · have h1 : convert_google_drive_url u = u := by
      rw [convert_google_drive_url, if_pos hg]
    rw [h1, h1]
  · cases hf : findFileId u.toList with
    | none =>
      have h1 : convert_google_drive_url u = u := hunch u (Or.inr (Or.inr hf))
      rw [h1, h1]
    | some fid =>
      have h1 : convert_google_drive_url u
          = "https://drive.google.com/uc?export=view&id=" ++ fid := by
        rw [convert_google_drive_url, if_neg hg, hf]
      rw [h1]
      apply hunch
      refine Or.inr (Or.inr ?_)
      have hchars := findFileId_chars hf
      have hlist : ("https://drive.google.com/uc?export=view&id=" ++ fid).toList
          = ("https://drive.google.com/uc?export=view&id=").toList ++ fid.toList := by
        simp [String.toList]
      rw [hlist]
      apply findFileId_safe_append
      · decide
      · intro c hc
        exact idChar_ne_slash (hchars c hc)

/-- Witness for C8 at the concrete non-Drive URL: the hypothesis of the
passthrough conjunct is discharged by computation. -/
theorem claim_C8_witness :
    convert_google_drive_url "https://example.com/img.jpg" = "https://example.com/img.jpg" :=
  claim_C8_url_normalizer.2.1 "https://example.com/img.jpg" (Or.inr (Or.inl (by decide)))

/-- C3: with an empty catalog snapshot, `get_recommendation` returns
`None` (an absence signal), whatever the request, shuffle outcome,
ranking outcome and randomness. -/
theorem claim_C3_empty_catalog (user_request : String) (shuffled : List Restaurant)
    (outcome : RankOutcome) (jitter : Nat → ℚ) (pick : Nat) :
    get_recommendation [] user_request shuffled outcome jitter pick = none := rfl

/-- C10: `get_recommendation` never mutates the stored catalog: the
state-passing embedding returns `self.restaurants_data` unchanged and
its result is the pure pipeline over the read snapshot. -/
theorem claim_C10_no_mutation (st : BotState) (user_request : String)
    (shuffled : List Restaurant) (outcome : RankOutcome) (jitter : Nat → ℚ) (pick : Nat) :
    (get_recommendation_state st user_request shuffled outcome jitter pick).2 = st ∧
    (get_recommendation_state st user_request shuffled outcome jitter pick).1
      = get_recommendation st.restaurants_data user_request shuffled outcome jitter pick :=
  ⟨rfl, rfl⟩

/-- C9 as amended: at result assembly each of the six fields `name`,
`address`, `socials`, `vibe`, `aim`, `cuisine` that is absent from the
chosen record is replaced by its fixed human-readable placeholder
string, while the remaining three (`menu`, `menu_url`, `photo`) are
replaced by the fixed EMPTY string; earlier pipeline stages (menu
filter, fallback scorer) read absent fields as the empty string, never
as a placeholder. -/
theorem claim_C9_placeholders (r : Restaurant) :
    ((r.name = none → (assemble r).name = "Ресторан")
  ∧ (r.address = none → (assemble r).address = "Адреса не вказана")
  ∧ (r.socials = none → (assemble r).socials = "Соц-мережі не вказані")
  ∧ (r.vibe = none → (assemble r).vibe = "Приємна атмосфера")
  ∧ (r.aim = none → (assemble r).aim = "Для будь-яких подій")
  ∧ (r.cuisine = none → (assemble r).cuisine = "Смачна кухня")
  ∧ (r.menu = none → (assemble r).menu = "")
  ∧ (r.menu_url = none → (assemble r).menu_url = "")
  ∧ (r.photo = none → (assemble r).photo = ""))
  ∧ (∀ req : String,
       menu_matches req { r with menu := none } = menu_matches req { r with menu := some "" })
  ∧ (∀ u : String,
       base_score u { r with vibe := none, aim := none, cuisine := none }
         = base_score u { r with vibe := some "", aim := some "", cuisine := some "" }) := by
  refine ⟨⟨?_, ?_, ?_, ?_, ?_, ?_, ?_, ?_, ?_⟩, fun req => rfl, fun u => rfl⟩ <;>
    intro h <;> simp [assemble, h] <;> intro h2 <;> exact absurd h2 (by decide)

/-- Witness for C9 (amended) at the all-absent record. -/
theorem claim_C9_witness :
    (assemble {}).name = "Ресторан" ∧ (assemble {}).menu = "" ∧ (assemble {}).photo = "" :=
  ⟨(claim_C9_placeholders {}).1.1 rfl, (claim_C9_placeholders {}).1.2.2.2.2.2.2.1 rfl,
   (claim_C9_placeholders {}).1.2.2.2.2.2.2.2.2 rfl⟩

/-- Counterexample for C9 as frozen: for the record with every field
absent (lines 190-200 at a row lacking all nine keys), the assembled
`menu`, `menu_url` and `photo` are the EMPTY string — it contains no
characters at all, so it is a fixed default but not a human-readable
placeholder string (the transport layer even treats these empty values
as absence, via `startswith('http')` at lines 390 and 396). Thus three
of the nine fields refute "every absent field is replaced by a fixed
human-readable placeholder string". -/
theorem claim_C9_counterexample :
    ({} : Restaurant).menu = none
    ∧ (assemble {}).menu = ""
    ∧ (assemble {}).menu.toList = []
    ∧ ({} : Restaurant).menu_url = none
    ∧ (assemble {}).menu_url = ""
    ∧ ({} : Restaurant).photo = none
    ∧ (assemble {}).photo = "" :=
  ⟨rfl, by decide, by decide, rfl, by decide, rfl, by decide⟩

lemma takeWhile_append_of_all {α : Type} {p : α → Bool} :
    ∀ {a b : List α}, (∀ c ∈ a, p c = true) → (a ++ b).takeWhile p = a ++ b.takeWhile p
  | [], _, _ => rfl
  | x :: a, b, h => by
    have hx : p x = true := h x (by simp)
    simp only [List.cons_append, List.takeWhile_cons, hx, if_true]
    rw [takeWhile_append_of_all (fun c hc => h c (by simp [hc]))]

lemma takeWhile_head_neg {α : Type} {p : α → Bool} :
    ∀ {b : List α}, (∀ c, b.head? = some c → p c = false) → b.takeWhile p = []
  | [], _ => rfl
  | x :: bs, h => by
    have hx : p x = false := h x rfl
    simp [List.takeWhile_cons, hx]

lemma firstDigitRun_spec : ∀ (l1 : List Char) {d : Char} {ds l2 : List Char},
    (∀ c ∈ l1, c.isDigit = false) → d.isDigit = true → (∀ c ∈ ds, c.isDigit = true) →
    (∀ c, l2.head? = some c → c.isDigit = false) →
    firstDigitRun (l1 ++ (d :: ds) ++ l2) = some (d :: ds)
  | [], d, ds, l2, _, hd, hds, hl2 => by
    simp only [List.nil_append, List.cons_append, firstDigitRun, hd, if_true, List.append_eq]
    rw [takeWhile_append_of_all hds, takeWhile_head_neg hl2, List.append_nil]
  | c :: l1, d, ds, l2, h1, hd, hds, hl2 => by
    have hc : c.isDigit = false := h1 c (by simp)
    simp only [List.cons_append, firstDigitRun, hc, Bool.false_eq_true, if_false]
    exact firstDigitRun_spec l1 (fun x hx => h1 x (by simp [hx])) hd hds hl2

lemma firstDigitRun_none : ∀ {l : List Char},
    firstDigitRun l = none ↔ (∀ c ∈ l, c.isDigit = false)
  | [] => by simp [firstDigitRun]
  | c :: cs => by
    rw [firstDigitRun]
    by_cases hc : c.isDigit = true
    · rw [if_pos hc]
      constructor
      · intro h; exact absurd h (by simp)
      · intro h; exact absurd (h c (List.mem_cons_self c cs)) (by simp [hc])
    · rw [if_neg hc, firstDigitRun_none (l := cs)]
      constructor
      · intro h x hx
        rcases List.mem_cons.mp hx with rfl | hx2
        · exact Bool.eq_false_iff.mpr hc
        · exact h x hx2
      · intro h x hx
        exact h x (List.mem_cons_of_mem _ hx)

/-- C4: the ranking-response parser takes the first run of decimal
digits anywhere in the text (failure exactly when there are none),
reads it as a 1-based index, and keeps it exactly when it lies in
`[1, n]`; the spec's four concrete examples follow. -/
theorem claim_C4_rank_parsing :
    (∀ text : String, firstNumber text = none ↔ (∀ c ∈ text.toList, c.isDigit = false))
  ∧ (∀ (l1 : List Char) (d : Char) (ds l2 : List Char),
       (∀ c ∈ l1, c.isDigit = false) → d.isDigit = true → (∀ c ∈ ds, c.isDigit = true) →
       (∀ c, l2.head? = some c → c.isDigit = false) →
       firstNumber (String.mk (l1 ++ (d :: ds) ++ l2)) = some (digitsToNat (d :: ds)))
  ∧ (∀ (text : String) (n : Nat), firstNumber text = none → parse_rank text n = none)
  ∧ (∀ (text : String) (n k : Nat), firstNumber text = some k →
       parse_rank text n = if 1 ≤ k ∧ k ≤ n then some k else none)
  ∧ parse_rank "2" 5 = some 2
  ∧ parse_rank "I\x27d pick option 3 because..." 5 = some 3
  ∧ parse_rank "no clear answer" 5 = none
  ∧ parse_rank "99" 5 = none := by
  refine ⟨?_, ?_, ?_, ?_, by decide, by decide, by decide, by decide⟩
  · intro text
    constructor
    · intro h
      apply firstDigitRun_none.mp
      cases hfd : firstDigitRun text.toList with
      | none => rfl
      | some ds => rw [firstNumber, hfd] at h; cases h
    · intro h
      rw [firstNumber, firstDigitRun_none.mpr h]
      rfl
  · intro l1 d ds l2 h1 hd hds hl2
    rw [firstNumber]
    have hmk : (String.mk (l1 ++ (d :: ds) ++ l2)).toList = l1 ++ (d :: ds) ++ l2 := rfl
    rw [hmk, firstDigitRun_spec l1 h1 hd hds hl2]
    rfl
  · intro text n h
    rw [parse_rank, h]
  · intro text n k h
    rw [parse_rank, h]

/-- Witness for C4 at the out-of-range example: `"99"` parses to 99,
which the range check `[1, 5]` rejects. -/
theorem claim_C4_witness :
    parse_rank "99" 5 = if 1 ≤ 99 ∧ 99 ≤ 5 then some 99 else none :=
  claim_C4_rank_parsing.2.2.2.1 "99" 5 99 (by decide)

lemma mem_of_mem_enum {α : Type} {l : List α} {i : Nat} {a : α}
    (h : (i, a) ∈ l.enum) : a ∈ l := by
  rw [List.enum_eq_zip_range] at h
  exact (List.of_mem_zip h).2

lemma sorted_scored_length (user_request : String) (restaurant_list : List Restaurant)
    (jitter : Nat → ℚ) :
    (sorted_scored user_request restaurant_list jitter).length = restaurant_list.length := by
  rw [sorted_scored, (List.perm_insertionSort _ _).length_eq, scored_restaurants,
    List.length_map, List.enum_length]

lemma mem_of_mem_sorted_scored (user_request : String) (restaurant_list : List Restaurant)
    (jitter : Nat → ℚ) {x : ℚ × Restaurant}
    (h : x ∈ sorted_scored user_request restaurant_list jitter) : x.2 ∈ restaurant_list := by
  rw [sorted_scored] at h
  rw [(List.perm_insertionSort _ _).mem_iff, scored_restaurants] at h
  obtain ⟨ir, hir, hx⟩ := List.mem_map.mp h
  obtain ⟨i, r⟩ := ir
  have hr : r ∈ restaurant_list := mem_of_mem_enum hir
  rw [← hx]
  exact hr

lemma smart_fallback_mem (user_request : String) (restaurant_list : List Restaurant)
    (jitter : Nat → ℚ) (pick : Nat) (hne : restaurant_list ≠ []) :
    ∃ r ∈ restaurant_list,
      smart_fallback_selection user_request restaurant_list jitter pick = some r := by
  cases hs : sorted_scored user_request restaurant_list jitter with
  | nil =>
    exfalso
    have hlen := sorted_scored_length user_request restaurant_list jitter
    rw [hs] at hlen
    exact hne (List.length_eq_zero.mp hlen.symm)
  | cons top rest =>
    simp only [smart_fallback_selection, hs]
    by_cases htop : 0 < top.1
    · rw [if_pos htop]
      have htclen : 0 <
          ((top :: rest).take (min 3 (top :: rest).length)).length := by
        rw [List.length_take]
        simp [Nat.lt_min]
      have hidx := Nat.mod_lt pick htclen
      rw [List.getElem?_eq_getElem hidx]
      refine ⟨_, ?_, rfl⟩
      apply mem_of_mem_sorted_scored user_request restaurant_list jitter
      rw [hs]
      exact List.mem_of_mem_take (List.getElem_mem hidx)
    · rw [if_neg htop]
      have hlen : 0 < restaurant_list.length := List.length_pos.mpr hne
      have hidx := Nat.mod_lt pick hlen
      rw [List.getElem?_eq_getElem hidx]
      exact ⟨_, List.getElem_mem hidx, rfl⟩

/-- C7: on any non-empty candidate list, for every request and every
outcome of its internal randomness, `_smart_fallback_selection`
returns an element of the input list (never an error, never no
answer). -/
theorem claim_C7_fallback_total (user_request : String) (restaurant_list : List Restaurant)
    (jitter : Nat → ℚ) (pick : Nat) (hne : restaurant_list ≠ []) :
    ∃ r ∈ restaurant_list,
      smart_fallback_selection user_request restaurant_list jitter pick = some r :=
  smart_fallback_mem user_request restaurant_list jitter pick hne

/-- Witness for C7 on a concrete two-element list. -/
theorem claim_C7_witness :
    ∃ r ∈ [sushi_bar, pizza_place],
      smart_fallback_selection "щось" [sushi_bar, pizza_place] (fun _ => 0) 0 = some r :=
  claim_C7_fallback_total "щось" [sushi_bar, pizza_place] (fun _ => 0) 0 (by decide)

/-- C5: the menu filter leaves the list unchanged when no dish keyword
is detected, and when no candidate's menu matches; when a dish is
detected and some candidate matches, the result is exactly the
(non-empty) sublist of matching candidates in their original order. -/
theorem claim_C5_menu_filter (user_request : String) (lst : List Restaurant) :
    ((requested_dishes user_request).isEmpty = true →
       filter_by_menu user_request lst = lst)
  ∧ ((requested_dishes user_request).isEmpty = false →
       (∀ r ∈ lst, menu_matches user_request r = false) →
       filter_by_menu user_request lst = lst)
  ∧ ((requested_dishes user_request).isEmpty = false →
       (∃ r ∈ lst, menu_matches user_request r = true) →
       filter_by_menu user_request lst = lst.filter (menu_matches user_request)
       ∧ filter_by_menu user_request lst ≠ []
       ∧ (filter_by_menu user_request lst).Sublist lst) := by
  refine ⟨?_, ?_, ?_⟩
  · intro h
    rw [filter_by_menu, if_pos h]
  · intro h hall
    have hf : lst.filter (menu_matches user_request) = [] :=
      List.filter_eq_nil_iff.mpr (fun a ha => by simp [hall a ha])
    rw [filter_by_menu, if_neg (by simp [h]), if_pos (by simp [hf])]
  · intro h hex
    obtain ⟨r, hr, hm⟩ := hex
    have hfne : lst.filter (menu_matches user_request) ≠ [] := by
      intro hnil
      exact absurd hm (by simpa using List.filter_eq_nil_iff.mp hnil r hr)
    have heq : filter_by_menu user_request lst = lst.filter (menu_matches user_request) := by
      rw [filter_by_menu, if_neg (by simp [h]), if_neg (by simp [hfne])]
    exact ⟨heq, by rw [heq]; exact hfne, by rw [heq]; exact List.filter_sublist lst⟩

/-- Witness for C5 on the spec's concrete scenario: the request
`"шукаю піцу"` detects the pizza dish and keeps exactly
`pizza_place`. -/
theorem claim_C5_witness :
    filter_by_menu "шукаю піцу" [sushi_bar, pizza_place]
      = [sushi_bar, pizza_place].filter (menu_matches "шукаю піцу")
    ∧ filter_by_menu "шукаю піцу" [sushi_bar, pizza_place] ≠ []
    ∧ (filter_by_menu "шукаю піцу" [sushi_bar, pizza_place]).Sublist
        [sushi_bar, pizza_place] :=
  (claim_C5_menu_filter "шукаю піцу" [sushi_bar, pizza_place]).2.2 (by decide)
    ⟨pizza_place, by decide, by decide⟩

lemma filter_by_menu_cases (user_request : String) (lst : List Restaurant) :
    filter_by_menu user_request lst = lst ∨
    filter_by_menu user_request lst = lst.filter (menu_matches user_request) := by
  rw [filter_by_menu]
  by_cases h1 : (requested_dishes user_request).isEmpty = true
  · left; rw [if_pos h1]
  · rw [if_neg h1]
    by_cases h2 : (lst.filter (menu_matches user_request)).isEmpty = true
    · left; rw [if_pos h2]
    · right; rw [if_neg h2]

lemma filter_by_menu_sublist (user_request : String) (lst : List Restaurant) :
    (filter_by_menu user_request lst).Sublist lst := by
  rcases filter_by_menu_cases user_request lst with h | h <;> rw [h]
  exact List.filter_sublist lst

lemma filter_by_menu_ne_nil {user_request : String} {lst : List Restaurant}
    (h : lst ≠ []) : filter_by_menu user_request lst ≠ [] := by
  rw [filter_by_menu]
  by_cases h1 : (requested_dishes user_request).isEmpty = true
  · rw [if_pos h1]; exact h
  · rw [if_neg h1]
    by_cases h2 : (lst.filter (menu_matches user_request)).isEmpty = true
    · rw [if_pos h2]; exact h
    · rw [if_neg h2]
      intro hf
      exact h2 (by simp [hf])

lemma parse_rank_some {text : String} {n k : Nat} (h : parse_rank text n = some k) :
    1 ≤ k ∧ k ≤ n := by
  unfold parse_rank at h
  split at h
  · exact absurd h (by simp)
  · split at h
    · next hc =>
      obtain rfl : _ = k := by injection h
      exact hc
    · exact absurd h (by simp)

lemma get_recommendation_failure {restaurants_data : List Restaurant}
    (user_request : String) (shuffled : List Restaurant) (jitter : Nat → ℚ) (pick : Nat)
    (hne : restaurants_data ≠ []) :
    get_recommendation restaurants_data user_request shuffled RankOutcome.failure jitter pick
      = (smart_fallback_selection user_request restaurants_data jitter pick).map assemble := by
  rw [get_recommendation, if_neg (by simp [hne]), fallback_selection_dict]

lemma get_recommendation_response {restaurants_data : List Restaurant}
    (user_request : String) (shuffled : List Restaurant) (text : String)
    (jitter : Nat → ℚ) (pick : Nat) (hne : restaurants_data ≠ []) :
    get_recommendation restaurants_data user_request shuffled (RankOutcome.response text)
        jitter pick
      = match parse_rank text (filter_by_menu user_request shuffled).length with
        | some k => ((filter_by_menu user_request shuffled)[k - 1]?).map assemble
        | none => (smart_fallback_selection user_request
            (filter_by_menu user_request shuffled) jitter pick).map assemble := by
  rw [get_recommendation, if_neg (by simp [hne])]

/-- C2: with a non-empty catalog, for every request, shuffle outcome
(any permutation of the data), ranking outcome and randomness,
`get_recommendation` returns a `Recommendation` that is the assembly
(placeholders plus URL normalization) of exactly one stored record. -/
theorem claim_C2_from_one_record (restaurants_data : List Restaurant)
    (user_request : String) (shuffled : List Restaurant) (outcome : RankOutcome)
    (jitter : Nat → ℚ) (pick : Nat)
    (hne : restaurants_data ≠ []) (hperm : shuffled.Perm restaurants_data) :
    ∃ r ∈ restaurants_data,
      get_recommendation restaurants_data user_request shuffled outcome jitter pick
        = some (assemble r) := by
  have hsne : shuffled ≠ [] := by
    intro h0
    rw [h0] at hperm
    exact hne hperm.symm.eq_nil
  cases outcome with
  | failure =>
    obtain ⟨r, hr, hsel⟩ :=
      smart_fallback_mem user_request restaurants_data jitter pick hne
    refine ⟨r, hr, ?_⟩
    rw [get_recommendation_failure user_request shuffled jitter pick hne, hsel]
    rfl
  | response text =>
    rw [get_recommendation_response user_request shuffled text jitter pick hne]
    cases hp : parse_rank text (filter_by_menu user_request shuffled).length with
    | some k =>
      obtain ⟨h1, h2⟩ := parse_rank_some hp
      have hidx : k - 1 < (filter_by_menu user_request shuffled).length := by omega
      refine ⟨(filter_by_menu user_request shuffled)[k - 1], ?_, ?_⟩
      · exact (hperm.mem_iff).mp
          ((filter_by_menu_sublist user_request shuffled).subset (List.getElem_mem hidx))
      · have hval : ((filter_by_menu user_request shuffled)[k - 1]?).map assemble
            = some (assemble (filter_by_menu user_request shuffled)[k - 1]) := by
          rw [List.getElem?_eq_getElem hidx]
          rfl
        exact hval
    | none =>
      obtain ⟨r, hr, hsel⟩ := smart_fallback_mem user_request
        (filter_by_menu user_request shuffled) jitter pick
        (filter_by_menu_ne_nil hsne)
      refine ⟨r, ?_, ?_⟩
      · exact (hperm.mem_iff).mp ((filter_by_menu_sublist user_request shuffled).subset hr)
      · have hval : (smart_fallback_selection user_request
            (filter_by_menu user_request shuffled) jitter pick).map assemble
            = some (assemble r) := by
          rw [hsel]
          rfl
        exact hval

/-- Witness for C2 on the concrete scenario with a timeout outcome. -/
theorem claim_C2_witness :
    ∃ r ∈ [sushi_bar, pizza_place],
      get_recommendation [sushi_bar, pizza_place] "шукаю піцу" [pizza_place, sushi_bar]
        RankOutcome.failure (fun _ => 0) 0 = some (assemble r) :=
  claim_C2_from_one_record [sushi_bar, pizza_place] "шукаю піцу" [pizza_place, sushi_bar]
    RankOutcome.failure (fun _ => 0) 0 (by decide)
    (List.Perm.swap sushi_bar pizza_place [])

/-- Counterexample for C1: in the spec's concrete scenario, on a
ranking timeout the code runs `_fallback_selection_dict`, which scores
`self.restaurants_data` — the full catalog, not the menu-filtered
set — so one reachable randomness outcome (jitter 1 for Sushi Bar,
0 for Pizza Place, choice index 0) returns a recommendation named
"Sushi Bar"; the menu filter itself keeps only Pizza Place, and the
fallback applied to that filtered set would have returned it. -/
theorem claim_C1_counterexample :
    get_recommendation [sushi_bar, pizza_place] "шукаю піцу" [sushi_bar, pizza_place]
        RankOutcome.failure (fun i => if i = 0 then 1 else 0) 0
      = some (assemble sushi_bar)
    ∧ (assemble sushi_bar).name = "Sushi Bar"
    ∧ (assemble sushi_bar).name ≠ "Pizza Place"
    ∧ filter_by_menu "шукаю піцу" [sushi_bar, pizza_place] = [pizza_place]
    ∧ smart_fallback_selection "шукаю піцу"
        (filter_by_menu "шукаю піцу" [sushi_bar, pizza_place])
        (fun i => if i = 0 then 1 else 0) 0 = some pizza_place := by
  have hfilter : filter_by_menu "шукаю піцу" [sushi_bar, pizza_place] = [pizza_place] := by
    decide
  have hb1 : base_score (lowerStr "шукаю піцу") sushi_bar = 0 := by decide
  have hb2 : base_score (lowerStr "шукаю піцу") pizza_place = 0 := by decide
  have hsel : smart_fallback_selection "шукаю піцу" [sushi_bar, pizza_place]
      (fun i => if i = 0 then 1 else 0) 0 = some sushi_bar := by
    have hscored : scored_restaurants "шукаю піцу" [sushi_bar, pizza_place]
        (fun i => if i = 0 then 1 else 0) = [(1, sushi_bar), (0, pizza_place)] := by
      simp [scored_restaurants, List.enum, List.enumFrom, hb1, hb2]
    have hsort : sorted_scored "шукаю піцу" [sushi_bar, pizza_place]
        (fun i => if i = 0 then 1 else 0) = [(1, sushi_bar), (0, pizza_place)] := by
      rw [sorted_scored, hscored]
      norm_num [List.insertionSort, List.orderedInsert]
    rw [smart_fallback_selection, hsort]
    norm_num
  have hsel2 : smart_fallback_selection "шукаю піцу" [pizza_place]
      (fun i => if i = 0 then 1 else 0) 0 = some pizza_place := by
    have hscored : scored_restaurants "шукаю піцу" [pizza_place]
        (fun i => if i = 0 then 1 else 0) = [(1, pizza_place)] := by
      simp [scored_restaurants, List.enum, List.enumFrom, hb2]
    have hsort : sorted_scored "шукаю піцу" [pizza_place]
        (fun i => if i = 0 then 1 else 0) = [(1, pizza_place)] := by
      rw [sorted_scored, hscored]
      norm_num [List.insertionSort, List.orderedInsert]
    rw [smart_fallback_selection, hsort]
    norm_num
  refine ⟨?_, by decide, by decide, hfilter, ?_⟩
  · rw [get_recommendation_failure "шукаю піцу" [sushi_bar, pizza_place]
      (fun i => if i = 0 then 1 else 0) 0 (by decide), hsel]
    rfl
  · rw [hfilter, hsel2]

/-- C1 as amended: only an unusable ranking ANSWER (no digits, or an
out-of-range index) sends the fallback scorer to the menu-filtered
set; a timeout or call error sends it to the full stored catalog,
unshuffled and unfiltered. In the concrete scenario the timeout
result is "Pizza Place" only for randomness outcomes that select it,
e.g. zero jitter with choice index 1. -/
theorem claim_C1_amended (restaurants_data : List Restaurant) (user_request : String)
    (shuffled : List Restaurant) (jitter : Nat → ℚ) (pick : Nat)
    (hne : restaurants_data ≠ []) :
    (∀ text : String,
       parse_rank text (filter_by_menu user_request shuffled).length = none →
       get_recommendation restaurants_data user_request shuffled
           (RankOutcome.response text) jitter pick
         = (smart_fallback_selection user_request
             (filter_by_menu user_request shuffled) jitter pick).map assemble)
  ∧ get_recommendation restaurants_data user_request shuffled RankOutcome.failure jitter pick
      = (smart_fallback_selection user_request restaurants_data jitter pick).map assemble
  ∧ get_recommendation [sushi_bar, pizza_place] "шукаю піцу" [sushi_bar, pizza_place]
      RankOutcome.failure (fun _ => 0) 1 = some (assemble pizza_place) := by
  have hscenario : get_recommendation [sushi_bar, pizza_place] "шукаю піцу"
      [sushi_bar, pizza_place] RankOutcome.failure (fun _ => 0) 1
      = some (assemble pizza_place) := by
    have hb1 : base_score (lowerStr "шукаю піцу") sushi_bar = 0 := by decide
    have hb2 : base_score (lowerStr "шукаю піцу") pizza_place = 0 := by decide
    have hscored : scored_restaurants "шукаю піцу" [sushi_bar, pizza_place]
        (fun _ => 0) = [(0, sushi_bar), (0, pizza_place)] := by
      simp [scored_restaurants, List.enum, List.enumFrom, hb1, hb2]
    have hsort : sorted_scored "шукаю піцу" [sushi_bar, pizza_place]
        (fun _ => 0) = [(0, sushi_bar), (0, pizza_place)] := by
      rw [sorted_scored, hscored]
      norm_num [List.insertionSort, List.orderedInsert]
    have hsel : smart_fallback_selection "шукаю піцу" [sushi_bar, pizza_place]
        (fun _ => 0) 1 = some pizza_place := by
      rw [smart_fallback_selection, hsort]
      norm_num
    rw [get_recommendation_failure "шукаю піцу" [sushi_bar, pizza_place]
      (fun _ => 0) 1 (by decide), hsel]
    rfl
  refine ⟨?_, get_recommendation_failure user_request shuffled jitter pick hne, hscenario⟩
  intro text hp
  rw [get_recommendation_response user_request shuffled text jitter pick hne, hp]

/-- Witness for C1 (amended) at a concrete unusable answer: the
response "no clear answer" has no digits, so the fallback runs on the
menu-filtered set, which keeps only Pizza Place. -/
theorem claim_C1_witness :
    get_recommendation [sushi_bar, pizza_place] "шукаю піцу" [sushi_bar, pizza_place]
        (RankOutcome.response "no clear answer") (fun _ => 0) 0
      = (smart_fallback_selection "шукаю піцу"
          (filter_by_menu "шукаю піцу" [sushi_bar, pizza_place]) (fun _ => 0) 0).map
          assemble :=
  (claim_C1_amended [sushi_bar, pizza_place] "шукаю піцу" [sushi_bar, pizza_place]
    (fun _ => 0) 0 (by decide)).1 "no clear answer" (by decide)

/-- Counterexample for C6: the request "романтика" matches exactly the
`romantic` category and exactly one candidate (`intim_venue`) matches
that category's venue keywords, yet with jitter mocked to zero there
is a reachable `random.choice` outcome (index 1 into the top-3 pool)
for which the fallback returns the other candidate: the top-3 random
draw of lines 305-310 keeps zero-scored candidates in the pool, so
the unique top scorer is NOT selected with probability 1. -/
theorem claim_C6_counterexample :
    keywords_map.filter
        (fun t => t.2.1.any (fun k => substrB k (lowerStr "романтика")))
      = [("romantic", (["романт", "побачен", "двох", "інтимн", "затишн"],
                       ["інтимн", "романт", "для пар", "затишн"]))]
    ∧ [intim_venue, plain_venue].filter
        (fun r => (["інтимн", "романт", "для пар", "затишн"] : List String).any
          (fun k => substrB k (restaurant_text r))) = [intim_venue]
    ∧ smart_fallback_selection "романтика" [intim_venue, plain_venue] (fun _ => 0) 1
        = some plain_venue
    ∧ plain_venue ≠ intim_venue := by
  have hb1 : base_score (lowerStr "романтика") intim_venue = 5 := by decide
  have hb2 : base_score (lowerStr "романтика") plain_venue = 0 := by decide
  have hscored : scored_restaurants "романтика" [intim_venue, plain_venue]
      (fun _ => 0) = [(5, intim_venue), (0, plain_venue)] := by
    simp [scored_restaurants, List.enum, List.enumFrom, hb1, hb2]
  have hsort : sorted_scored "романтика" [intim_venue, plain_venue]
      (fun _ => 0) = [(5, intim_venue), (0, plain_venue)] := by
    rw [sorted_scored, hscored]
    norm_num [List.insertionSort, List.orderedInsert]
  refine ⟨by decide, by decide, ?_, by decide⟩
  rw [smart_fallback_selection, hsort]
  norm_num

/-- C6 as amended: given a request matching exactly one category and
exactly one candidate matching that category's venue keywords, with
jitter mocked to zero that candidate is the unique top scorer (score 5
against 0 for every other candidate) and heads the sorted pool, and
`select` returns it for every `random.choice` outcome that draws the
head of the top-`min(3, len)` pool — but not with probability 1 on
lists with further candidates, since the top-3 pool retains
zero-scored candidates. -/
theorem claim_C6_amended (user_request : String) (lst : List Restaurant)
    (cat : String × List String × List String) (rstar : Restaurant)
    (hcat : keywords_map.filter
        (fun t => t.2.1.any (fun k => substrB k (lowerStr user_request))) = [cat])
    (hven : lst.filter
        (fun r => cat.2.2.any (fun k => substrB k (restaurant_text r))) = [rstar]) :
    base_score (lowerStr user_request) rstar = 5
    ∧ (∀ r ∈ lst, r ≠ rstar → base_score (lowerStr user_request) r = 0)
    ∧ (∀ pick : Nat, pick % min 3 lst.length = 0 →
        smart_fallback_selection user_request lst (fun _ => 0) pick = some rstar) := by
  have hbase : ∀ r : Restaurant, base_score (lowerStr user_request) r
      = if (cat.2.2.any fun k => substrB k (restaurant_text r)) = true then 5 else 0 := by
    intro r
    rw [base_score]
    have h1 : keywords_map.countP (fun t =>
        (t.2.1.any fun k => substrB k (lowerStr user_request)) &&
        (t.2.2.any fun k => substrB k (restaurant_text r)))
        = (keywords_map.filter (fun t =>
            t.2.1.any fun k => substrB k (lowerStr user_request))).countP
          (fun t => t.2.2.any fun k => substrB k (restaurant_text r)) := by
      rw [List.countP_filter]
      exact List.countP_congr (fun t _ => by simp [Bool.and_comm])
    rw [h1, hcat]
    simp only [List.countP_singleton]
    by_cases hv : (cat.2.2.any fun k => substrB k (restaurant_text r)) = true
    · simp [hv]
    · simp [hv]
  have hrmem_f : rstar ∈ lst.filter
      (fun r => cat.2.2.any fun k => substrB k (restaurant_text r)) := by
    rw [hven]
    exact List.mem_singleton_self rstar
  have hrstar_mem : rstar ∈ lst := (List.mem_filter.mp hrmem_f).1
  have hrstar_ven : (cat.2.2.any fun k => substrB k (restaurant_text rstar)) = true :=
    (List.mem_filter.mp hrmem_f).2
  have hbase_rstar : base_score (lowerStr user_request) rstar = 5 := by
    rw [hbase rstar, if_pos hrstar_ven]
  have hbase_other : ∀ r ∈ lst, r ≠ rstar → base_score (lowerStr user_request) r = 0 := by
    intro r hr hne'
    by_cases hv : (cat.2.2.any fun k => substrB k (restaurant_text r)) = true
    · exact absurd (List.eq_of_mem_singleton
        (hven ▸ List.mem_filter.mpr ⟨hr, hv⟩)) hne'
    · rw [hbase r, if_neg hv]
  refine ⟨hbase_rstar, hbase_other, ?_⟩
  have hmem_scored : ((5 : ℚ), rstar) ∈ scored_restaurants user_request lst (fun _ => 0) := by
    rw [scored_restaurants]
    obtain ⟨i, hi, hget⟩ := List.getElem_of_mem hrstar_mem
    have hilen : i < lst.enum.length := by
      rw [List.enum_length]
      exact hi
    refine List.mem_map.mpr ⟨(i, rstar), ?_, ?_⟩
    · have henum := List.getElem_enum lst i hilen
      rw [hget] at henum
      exact henum ▸ List.getElem_mem hilen
    · simp [hbase_rstar]
  have hscored_elem : ∀ x ∈ scored_restaurants user_request lst (fun _ => 0),
      x.2 ∈ lst ∧ x.1 = (base_score (lowerStr user_request) x.2 : ℚ) := by
    intro x hx
    rw [scored_restaurants] at hx
    obtain ⟨ir, hir, hxx⟩ := List.mem_map.mp hx
    obtain ⟨i, r⟩ := ir
    refine ⟨?_, ?_⟩
    · rw [← hxx]
      exact mem_of_mem_enum hir
    · rw [← hxx]
      simp
  have hperm : (sorted_scored user_request lst (fun _ => 0)).Perm
      (scored_restaurants user_request lst (fun _ => 0)) := List.perm_insertionSort _ _
  have hsorted : List.Sorted (fun a b : ℚ × Restaurant => b.1 ≤ a.1)
      (sorted_scored user_request lst (fun _ => 0)) := List.sorted_insertionSort _ _
  cases hs : sorted_scored user_request lst (fun _ => 0) with
  | nil =>
    exfalso
    have hlen := sorted_scored_length user_request lst (fun _ => 0)
    rw [hs] at hlen
    exact List.ne_nil_of_mem hrstar_mem (List.length_eq_zero.mp hlen.symm)
  | cons top rest =>
    rw [hs] at hperm hsorted
    have hstep : ∀ b ∈ rest, b.1 ≤ top.1 := (List.sorted_cons.mp hsorted).1
    have htopmem : top ∈ scored_restaurants user_request lst (fun _ => 0) :=
      hperm.subset (List.mem_cons_self top rest)
    have h5mem : ((5 : ℚ), rstar) ∈ top :: rest := hperm.mem_iff.mpr hmem_scored
    obtain ⟨htop_lst, htop_eq⟩ := hscored_elem top htopmem
    have h5le : (5 : ℚ) ≤ top.1 := by
      rcases List.mem_cons.mp h5mem with heq | hmem
      · rw [← heq]
      · exact hstep _ hmem
    have hle5 : top.1 ≤ 5 := by
      rw [htop_eq, hbase top.2]
      split <;> norm_num
    have htop1 : top.1 = (5 : ℚ) := le_antisymm hle5 h5le
    have hb5 : base_score (lowerStr user_request) top.2 = 5 := by
      have hcast : ((base_score (lowerStr user_request) top.2 : ℚ)) = 5 := by
        rw [← htop_eq, htop1]
      exact_mod_cast hcast
    have hven_top : (cat.2.2.any fun k => substrB k (restaurant_text top.2)) = true := by
      by_contra hv
      rw [hbase top.2, if_neg hv] at hb5
      exact absurd hb5 (by norm_num)
    have htop2 : top.2 = rstar :=
      List.eq_of_mem_singleton (hven ▸ List.mem_filter.mpr ⟨htop_lst, hven_top⟩)
    intro pick hpick
    simp only [smart_fallback_selection, hs]
    rw [if_pos (by rw [htop1]; norm_num)]
    have hlen1 : (top :: rest).length = lst.length := by
      rw [← hs, sorted_scored_length]
    have htake_len : ((top :: rest).take (min 3 (top :: rest).length)).length
        = min 3 lst.length := by
      rw [List.length_take, hlen1]
      exact inf_eq_left.mpr (min_le_right 3 lst.length)
    rw [htake_len, hpick]
    have hminpos : 0 < min 3 (top :: rest).length := by
      simp [Nat.lt_min]
    have h0 : ((top :: rest).take (min 3 (top :: rest).length))[0]? = some top := by
      rw [List.getElem?_take, if_pos hminpos]
      simp
    rw [h0]
    simp [htop2]

/-- Witness for C6 (amended) on the romantic scenario: with choice
index 0 the unique top scorer is returned. -/
theorem claim_C6_witness :
    smart_fallback_selection "романтика" [intim_venue, plain_venue] (fun _ => 0) 0
      = some intim_venue :=
  (claim_C6_amended "романтика" [intim_venue, plain_venue]
    ("romantic", (["романт", "побачен", "двох", "інтимн", "затишн"],
                  ["інтимн", "романт", "для пар", "затишн"])) intim_venue
    (by decide) (by decide)).2.2 0 (by decide)
